import Mathlib

/-
Verification of the junction-inference core of the RevitAPI-MEP extension
(`utils.py` and the driver loop of `script.py`).

Modelling conventions, used throughout:
* Coordinates are rationals (the source uses IEEE doubles; all the claims
  are about exact comparisons of the arithmetic the source performs, so the
  field of rationals is an adequate carrier).
* `p1.DistanceTo(p2)` comparisons are modelled on squared distances:
  `DistanceTo p q < t` with `t > 0` holds iff `distSq p q < t ^ 2`, and
  `DistanceTo a b < DistanceTo c d` iff `distSq a b < distSq c d`, because
  the square root is strictly monotone on nonnegative reals.  Lemma
  `closeEnough_iff_distSq` records the bridge for the 0.01 threshold.
* `math.sin(v1.AngleTo(v2))` (the Revit angle is `arccos` of the normalised
  dot product, in `[0, pi]`, so its sine is nonnegative) is modelled through
  the Lagrange identity: `sin(angle) = norm (cross v1 v2) / (norm v1 * norm v2)`,
  hence `sin(angle) < 0.01` iff `10000 * normSq (cross v1 v2) < normSq v1 * normSq v2`.
  Theorem `c7_are_directions_parallel_sine` proves that bridge against the
  genuine `Real.sin (Real.arccos ...)` expression.
* `Normalize()` scales a vector by the inverse of its (positive) length;
  the only consumer of a direction is `are_directions_parallel`, which is
  invariant under positive scaling of either argument (lemmas
  `are_directions_parallel_smul_left` and `..._smul_right`), so the model
  keeps the unnormalised end-minus-start vector.
* A raised-and-not-caught Python/Revit exception inside `create_fitting`
  (calling `AngleTo` on `None`, or indexing `sorted([])[0]`) is the
  `Outcome.error` value; a return without any fitting-constructor call is
  `Outcome.noop`; exactly one constructor call is `Outcome.created f`.
-/

namespace MEP

/-- A 3D point or vector, `DB.XYZ` of the source. -/
structure Vec3 where
  x : ℚ
  y : ℚ
  z : ℚ
deriving DecidableEq

/-- Componentwise subtraction, `XYZ.__sub__`. -/
def vsub (a b : Vec3) : Vec3 := ⟨a.x - b.x, a.y - b.y, a.z - b.z⟩

/-- Componentwise negation, `XYZ.Negate` (the vector `-d`). -/
def vneg (a : Vec3) : Vec3 := ⟨-a.x, -a.y, -a.z⟩

/-- Scalar multiple of a vector. -/
def smul (a : ℚ) (v : Vec3) : Vec3 := ⟨a * v.x, a * v.y, a * v.z⟩

/-- Dot product of two vectors. -/
def dot (a b : Vec3) : ℚ := a.x * b.x + a.y * b.y + a.z * b.z

/-- Cross product of two vectors. -/
def cross (a b : Vec3) : Vec3 :=
  ⟨a.y * b.z - a.z * b.y, a.z * b.x - a.x * b.z, a.x * b.y - a.y * b.x⟩

/-- Squared Euclidean norm. -/
def normSq (a : Vec3) : ℚ := dot a a

/-- Squared Euclidean distance, the square of `p.DistanceTo(q)`. -/
def distSq (p q : Vec3) : ℚ := normSq (vsub p q)

/-- The midpoint `(p1 + p2) * 0.5` of the source. -/
def mid (p q : Vec3) : Vec3 := ⟨(p.x + q.x) / 2, (p.y + q.y) / 2, (p.z + q.z) / 2⟩

/-- The real distance `p.DistanceTo(q)` is strictly below `0.01`.  Spec-side
reading of the comparison the source performs on doubles. -/
def closeEnough (p q : Vec3) : Prop :=
  Real.sqrt ((distSq p q : ℚ) : ℝ) < 1 / 100

/-- Source `are_directions_parallel(v1, v2, tolerance=0.01)`:
`math.sin(v1.AngleTo(v2)) < tolerance`.  Modelled by squaring the Lagrange
identity `sin(angle) * norm v1 * norm v2 = norm (cross v1 v2)` (the
angle is in `[0, pi]`, so both sides are nonnegative):
`sin(angle) < 1/100` iff `10000 * normSq (cross v1 v2) < normSq v1 * normSq v2`. -/
def are_directions_parallel (v1 v2 : Vec3) : Bool :=
  decide (10000 * normSq (cross v1 v2) < normSq v1 * normSq v2)

/-- One end of an MEP curve element: `DB.Connector`, exposing `Owner.Id`
and `Origin`. -/
structure Connector where
  owner : Nat
  origin : Vec3
deriving DecidableEq

/-- A bounded curve exposing `GetEndPoint(0)` and `GetEndPoint(1)`. -/
structure Curve where
  ep0 : Vec3
  ep1 : Vec3
deriving DecidableEq

/-- An MEP curve element (duct/pipe/tray/conduit).  `location` is `some c`
when `element.Location` is a `LocationCurve` holding curve `c`, `none`
otherwise; `connectors` is the `ConnectorManager.Connectors` enumeration in
order. -/
structure Duct where
  id : Nat
  location : Option Curve
  connectors : List Connector
deriving DecidableEq

/-- Source `find_shared_point_between_curves(c1, c2)`: `None` if either
curve is missing; otherwise scan the endpoint pairs in the loop order
`(c1.GetEndPoint(0), c2.GetEndPoint(0))`, `(ep0, ep1)`, `(ep1, ep0)`,
`(ep1, ep1)` and return the midpoint of the first pair at distance
strictly below `0.01` (`distSq < 1/10000`), else `None`. -/
def find_shared_point_between_curves (c1 c2 : Option Curve) : Option Vec3 :=
  match c1, c2 with
  | some u, some v =>
      [u.ep0, u.ep1].findSome? (fun p1 =>
        [v.ep0, v.ep1].findSome? (fun p2 =>
          if 10000 * distSq p1 p2 < 1 then some (mid p1 p2) else none))
  | _, _ => none

/-- Source `get_MEPcurve_element_direction(element)`:
`(curve.GetEndPoint(1) - curve.GetEndPoint(0)).Normalize() if curve else None`.
The model keeps the unnormalised end-minus-start vector: normalisation
multiplies by a positive scalar and the sole consumer,
`are_directions_parallel`, is invariant under positive scaling
(`are_directions_parallel_smul_left` and `..._smul_right`). -/
def get_MEPcurve_element_direction (e : Duct) : Option Vec3 :=
  match e.location with
  | some c => some (vsub c.ep1 c.ep0)
  | none => none

/-- Source `MEPcurve_element_nearest_connector_to_point(element, point)`:
`sorted(connectors, key=lambda c: c.Origin.DistanceTo(point))[0]`.  The
Python sort is stable, so index 0 is the first connector attaining the
minimal distance; the fold below keeps the current best and replaces it
only on a strict improvement, which yields exactly that connector.
`sorted([])[0]` raises `IndexError`; that case is `none` here (the caller
turns it into `Outcome.error`). -/
def MEPcurve_element_nearest_connector_to_point (e : Duct) (point : Vec3) :
    Option Connector :=
  e.connectors.foldl
    (fun acc c =>
      match acc with
      | none => some c
      | some b => if distSq c.origin point < distSq b.origin point then some c else some b)
    none

/-- One invocation of a fitting constructor (`doc.Create.New*Fitting`),
with its exact argument list. -/
inductive Fitting where
  | union (c1 c2 : Connector)
  | elbow (c1 c2 : Connector)
  | tee (c1 c2 c3 : Connector)
  | cross (c1 c2 c3 c4 : Connector)
deriving DecidableEq

/-- The observable outcome of one `create_fitting(doc, ducts)` call:
return with no constructor call (`noop`), exactly one constructor call
(`created`), or an uncaught exception inside the function (`error`):
`AngleTo` applied to a `None` direction, or `sorted([])[0]` on an element
with no connectors. -/
inductive Outcome where
  | noop
  | created (f : Fitting)
  | error
deriving DecidableEq

/-- Source `create_fitting(doc, ducts)`, translated clause by clause:
count guard; shared point of the first two curves; nearest connectors;
directions; then the arity-2 union/elbow split, the arity-3 tee cascade and
the arity-4 cross cascade.  In the source the nearest-connector lookups of a
branch run before any parallelism test of that branch (so an element with no
connectors raises even when a later test would short-circuit), while
`get_MEPcurve_element_direction` never raises on its own — a `None`
direction only raises at the `are_directions_parallel` call that consumes
it, which is why `dir3`/`dir4` are only matched at their use sites. -/
def create_fitting (ducts : List Duct) : Outcome :=
  if ducts.length < 2 ∨ ducts.length > 4 then .noop
  else
    match ducts with
    | d0 :: d1 :: rest =>
        match find_shared_point_between_curves d0.location d1.location with
        | none => .noop
        | some intersection =>
            match MEPcurve_element_nearest_connector_to_point d0 intersection,
                  MEPcurve_element_nearest_connector_to_point d1 intersection with
            | some conn1, some conn2 =>
                let dir1 := get_MEPcurve_element_direction d0
                let dir2 := get_MEPcurve_element_direction d1
                match rest with
                | [] =>
                    match dir1, dir2 with
                    | some v1, some v2 =>
                        if are_directions_parallel v1 v2 then .created (.union conn1 conn2)
                        else .created (.elbow conn1 conn2)
                    | _, _ => .error
                | [d2] =>
                    match MEPcurve_element_nearest_connector_to_point d2 intersection with
                    | some conn3 =>
                        let dir3 := get_MEPcurve_element_direction d2
                        match dir1, dir2 with
                        | some v1, some v2 =>
                            if are_directions_parallel v1 v2 then
                              .created (.tee conn1 conn2 conn3)
                            else
                              match dir3 with
                              | some v3 =>
                                  if are_directions_parallel v1 v3 then
                                    .created (.tee conn3 conn1 conn2)
                                  else
                                    .created (.tee conn3 conn2 conn1)
                              | none => .error
                        | _, _ => .error
                    | none => .error
                | [d2, d3] =>
                    match MEPcurve_element_nearest_connector_to_point d2 intersection,
                          MEPcurve_element_nearest_connector_to_point d3 intersection with
                    | some conn3, some conn4 =>
                        let dir3 := get_MEPcurve_element_direction d2
                        let dir4 := get_MEPcurve_element_direction d3
                        match dir1, dir2 with
                        | some v1, some v2 =>
                            if are_directions_parallel v1 v2 then
                              .created (.cross conn1 conn2 conn3 conn4)
                            else
                              match dir3 with
                              | some v3 =>
                                  if are_directions_parallel v1 v3 then
                                    .created (.cross conn1 conn3 conn2 conn4)
                                  else
                                    match dir4 with
                                    | some v4 =>
                                        if are_directions_parallel v1 v4 then
                                          .created (.cross conn1 conn4 conn2 conn3)
                                        else .noop
                                    | none => .error
                              | none => .error
                        | _, _ => .error
                    | _, _ => .error
                | _ => .noop
            | _, _ => .error
    | _ => .noop

/-- Source `round(x, 3)`: the coordinate rounded to 3 decimal places.  The
model rounds `x * 1000` to the nearest integer (`round` rounds half up;
CPython rounds half to even on doubles — the tie behaviour at exact
half-thousandths is immaterial to every claim, which only speak about the
key function being applied coordinatewise). -/
def roundTo3 (q : ℚ) : ℚ := ((round (q * 1000) : ℤ) : ℚ) / 1000

/-- The grouping key of a connector: `(round(p.X, 3), round(p.Y, 3), round(p.Z, 3))`
of its origin. -/
def connector_location_key (c : Connector) : ℚ × ℚ × ℚ :=
  (roundTo3 c.origin.x, roundTo3 c.origin.y, roundTo3 c.origin.z)

/-- `grouped[key].append(c)` on an insertion-ordered dictionary, modelled on
an association list: append `c` to the entry with this key if one exists,
otherwise append a fresh entry at the end. -/
def addToGroup (g : List ((ℚ × ℚ × ℚ) × List Connector)) (k : ℚ × ℚ × ℚ)
    (c : Connector) : List ((ℚ × ℚ × ℚ) × List Connector) :=
  match g with
  | [] => [(k, [c])]
  | (k1, cs) :: rest =>
      if k1 = k then (k1, cs ++ [c]) :: rest else (k1, cs) :: addToGroup rest k c

/-- Source `group_MEPcuve_element_connectors_by_location(connectors)`: a
`defaultdict(list)` filled in input order, keyed by the rounded origin.
Python dictionaries preserve the insertion order of first-seen keys; the
association list realises exactly that order. -/
def group_MEPcuve_element_connectors_by_location (connectors : List Connector) :
    List ((ℚ × ℚ × ℚ) × List Connector) :=
  connectors.foldl (fun g c => addToGroup g (connector_location_key c) c) []

/-- Spec-side characterisation of the key order: the insertion order of each
first-seen key, written independently of the grouping code so the two can be
compared. -/
def firstSeenKeys (ks : List (ℚ × ℚ × ℚ)) : List (ℚ × ℚ × ℚ) :=
  ks.foldl (fun acc k => if k ∈ acc then acc else acc ++ [k]) []

/-- Source `filter_MEPcurve_elements_using_connectors(connectors, all_MEPcurve_elements)`:
keep the elements whose `Id` is among the `Owner.Id` of the given connectors
(the source materialises the owner ids as a set; only membership is used, so
a list of owners is an equivalent model). -/
def filter_MEPcurve_elements_using_connectors (connectors : List Connector)
    (all_MEPcurve_elements : List Duct) : List Duct :=
  all_MEPcurve_elements.filter (fun d => (connectors.map Connector.owner).contains d.id)

/-- One logged failure of the per-cluster driver loop of `script.py`:
either an exception raised inside `create_fitting` itself, or a rejection
by the underlying `doc.Create.New*Fitting` capability (type `E` carries the
collaborator failure datum). -/
inductive ClusterFailure (E : Type) where
  | scriptError
  | ctorFailure (e : E)
deriving DecidableEq

/-- The body of one iteration of the `for group in connector_groups.values()`
loop of `script.py`: filter the owning elements of the cluster, run
`create_fitting`, and report the failure, if any, that the `except` clause
of the loop would catch.  `ctorFail` is the oracle saying whether the
junction-creation capability rejects a given constructor call. -/
def cluster_attempt {E : Type} (mep_elements : List Duct)
    (ctorFail : Fitting → Option E) (group : List Connector) :
    Option (ClusterFailure E) :=
  match create_fitting (filter_MEPcurve_elements_using_connectors group mep_elements) with
  | .noop => none
  | .error => some .scriptError
  | .created f => (ctorFail f).map ClusterFailure.ctorFailure

/-- The driver loop of `script.py` (lines 117-124): each cluster is tried
inside `try/except`; a caught failure is printed (appended to the log
returned here) and the loop moves on to the next cluster. -/
def connector_groups_loop {E : Type} (mep_elements : List Duct)
    (ctorFail : Fitting → Option E) (groups : List (List Connector)) :
    List (ClusterFailure E) :=
  groups.foldl
    (fun log g =>
      match cluster_attempt mep_elements ctorFail g with
      | none => log
      | some e => log ++ [e])
    []

/-
Concrete fixtures used by witnesses and counterexamples: axis-aligned unit
segments all meeting at the origin, each contributing the connector sitting
at the origin.
-/

/-- Connector of element 0 at the origin. -/
def sK1 : Connector := ⟨0, ⟨0, 0, 0⟩⟩

/-- The far connector of element 0. -/
def sK1far : Connector := ⟨0, ⟨1, 0, 0⟩⟩

/-- Connector of element 1 at the origin. -/
def sK2 : Connector := ⟨1, ⟨0, 0, 0⟩⟩

/-- Connector of element 2 at the origin. -/
def sK3 : Connector := ⟨2, ⟨0, 0, 0⟩⟩

/-- Connector of element 3 at the origin. -/
def sK4 : Connector := ⟨3, ⟨0, 0, 0⟩⟩

/-- Element 0: the segment from the origin to `(1,0,0)`. -/
def sD0 : Duct := ⟨0, some ⟨⟨0, 0, 0⟩, ⟨1, 0, 0⟩⟩, [sK1, sK1far]⟩

/-- Element 1 running antiparallel to element 0. -/
def sD1par : Duct := ⟨1, some ⟨⟨0, 0, 0⟩, ⟨-1, 0, 0⟩⟩, [sK2]⟩

/-- Element 1 running perpendicular to element 0. -/
def sD1perp : Duct := ⟨1, some ⟨⟨0, 0, 0⟩, ⟨0, 1, 0⟩⟩, [sK2]⟩

/-- Element 2 running perpendicular to element 0. -/
def sD2perp : Duct := ⟨2, some ⟨⟨0, 0, 0⟩, ⟨0, 1, 0⟩⟩, [sK3]⟩

/-- Element 2 running antiparallel to element 0. -/
def sD2par : Duct := ⟨2, some ⟨⟨0, 0, 0⟩, ⟨-1, 0, 0⟩⟩, [sK3]⟩

/-- Element 2 with no curve-based location (its `Location` is not a
`LocationCurve`), but still carrying a connector. -/
def sD2noloc : Duct := ⟨2, none, [sK3]⟩

/-- Element 3 running perpendicular to element 0, antiparallel to `sD1perp`. -/
def sD3perp : Duct := ⟨3, some ⟨⟨0, 0, 0⟩, ⟨0, -1, 0⟩⟩, [sK4]⟩

/-- Element 3 running along `(1,1,1)`, parallel to none of the others. -/
def sD3skew : Duct := ⟨3, some ⟨⟨0, 0, 0⟩, ⟨1, 1, 1⟩⟩, [sK4]⟩

/-- Element 1 whose curve sits far away from element 0 (no shared point). -/
def sD1far : Duct := ⟨1, some ⟨⟨5, 5, 5⟩, ⟨6, 5, 5⟩⟩, [⟨1, ⟨5, 5, 5⟩⟩]⟩

/-- A connector 0.0004 units away from the origin: its coordinates round to
the same key as the origin. -/
def sKnear : Connector := ⟨4, ⟨1 / 2500, 0, 0⟩⟩

/-
Helper lemmas shared by the claim theorems.
-/

/-- Unfolding of `create_fitting` on a two-element cluster that passes the
intersection precondition. -/
theorem create_fitting_two_eq (d0 d1 : Duct) (pt : Vec3) (k1 k2 : Connector)
    (v1 v2 : Vec3)
    (hpt : find_shared_point_between_curves d0.location d1.location = some pt)
    (h1 : MEPcurve_element_nearest_connector_to_point d0 pt = some k1)
    (h2 : MEPcurve_element_nearest_connector_to_point d1 pt = some k2)
    (hd1 : get_MEPcurve_element_direction d0 = some v1)
    (hd2 : get_MEPcurve_element_direction d1 = some v2) :
    create_fitting [d0, d1] =
      .created (if are_directions_parallel v1 v2 then .union k1 k2 else .elbow k1 k2) := by
  unfold create_fitting
  simp [hpt, h1, h2, hd1, hd2]
  split <;> rfl

/-- Unfolding of `create_fitting` on a three-element cluster that passes the
intersection precondition and whose elements all have directions. -/
theorem create_fitting_three_eq (d0 d1 d2 : Duct) (pt : Vec3)
    (k1 k2 k3 : Connector) (v1 v2 v3 : Vec3)
    (hpt : find_shared_point_between_curves d0.location d1.location = some pt)
    (h1 : MEPcurve_element_nearest_connector_to_point d0 pt = some k1)
    (h2 : MEPcurve_element_nearest_connector_to_point d1 pt = some k2)
    (h3 : MEPcurve_element_nearest_connector_to_point d2 pt = some k3)
    (hd1 : get_MEPcurve_element_direction d0 = some v1)
    (hd2 : get_MEPcurve_element_direction d1 = some v2)
    (hd3 : get_MEPcurve_element_direction d2 = some v3) :
    create_fitting [d0, d1, d2] =
      .created (if are_directions_parallel v1 v2 then .tee k1 k2 k3
        else if are_directions_parallel v1 v3 then .tee k3 k1 k2
        else .tee k3 k2 k1) := by
  unfold create_fitting
  simp [hpt, h1, h2, h3, hd1, hd2, hd3]
  split
  · rfl
  · split <;> rfl

/-- Unfolding of `create_fitting` on a four-element cluster that passes the
intersection precondition and whose elements all have directions. -/
theorem create_fitting_four_eq (d0 d1 d2 d3 : Duct) (pt : Vec3)
    (k1 k2 k3 k4 : Connector) (v1 v2 v3 v4 : Vec3)
    (hpt : find_shared_point_between_curves d0.location d1.location = some pt)
    (h1 : MEPcurve_element_nearest_connector_to_point d0 pt = some k1)
    (h2 : MEPcurve_element_nearest_connector_to_point d1 pt = some k2)
    (h3 : MEPcurve_element_nearest_connector_to_point d2 pt = some k3)
    (h4 : MEPcurve_element_nearest_connector_to_point d3 pt = some k4)
    (hd1 : get_MEPcurve_element_direction d0 = some v1)
    (hd2 : get_MEPcurve_element_direction d1 = some v2)
    (hd3 : get_MEPcurve_element_direction d2 = some v3)
    (hd4 : get_MEPcurve_element_direction d3 = some v4) :
    create_fitting [d0, d1, d2, d3] =
      (if are_directions_parallel v1 v2 then .created (.cross k1 k2 k3 k4)
        else if are_directions_parallel v1 v3 then .created (.cross k1 k3 k2 k4)
        else if are_directions_parallel v1 v4 then .created (.cross k1 k4 k2 k3)
        else .noop) := by
  unfold create_fitting
  simp [hpt, h1, h2, h3, h4, hd1, hd2, hd3, hd4]

/-
Claim theorems.
-/

/-- C6: for every input list of fewer than 2 or more than 4 elements,
`create_fitting` returns without invoking any constructor and without
touching any element data — the result is `noop` for arbitrary elements,
including elements with no curve location and no connectors. -/
theorem c6_arity_guard_noop (ducts : List Duct)
    (h : ducts.length < 2 ∨ ducts.length > 4) :
    create_fitting ducts = .noop := by
  unfold create_fitting
  rw [if_pos h]

/-- Witness for C6: a cluster of exactly 1 element and a cluster of exactly
5 elements both produce no junction. -/
theorem c6_arity_guard_noop_witness :
    create_fitting [sD0] = .noop ∧
    create_fitting [sD0, sD1par, sD2perp, sD3perp, sD0] = .noop :=
  ⟨c6_arity_guard_noop [sD0] (Or.inl (by decide)),
   c6_arity_guard_noop [sD0, sD1par, sD2perp, sD3perp, sD0] (Or.inr (by decide))⟩

/-- C3: on a two-element cluster that passes the intersection precondition,
exactly one constructor is invoked: the union constructor with
`(conn1, conn2)` in original element order when the two directions are
parallel, the elbow constructor with `(conn1, conn2)` otherwise. -/
theorem c3_two_element_union_elbow (d0 d1 : Duct) (pt : Vec3)
    (k1 k2 : Connector) (v1 v2 : Vec3)
    (hpt : find_shared_point_between_curves d0.location d1.location = some pt)
    (h1 : MEPcurve_element_nearest_connector_to_point d0 pt = some k1)
    (h2 : MEPcurve_element_nearest_connector_to_point d1 pt = some k2)
    (hd1 : get_MEPcurve_element_direction d0 = some v1)
    (hd2 : get_MEPcurve_element_direction d1 = some v2) :
    create_fitting [d0, d1] =
      .created (if are_directions_parallel v1 v2 then .union k1 k2 else .elbow k1 k2) :=
  create_fitting_two_eq d0 d1 pt k1 k2 v1 v2 hpt h1 h2 hd1 hd2

/-- Witness for C3: two collinear (antiparallel) elements sharing the origin
yield exactly one union call in original order; the same first element with
a perpendicular partner yields exactly one elbow call. -/
theorem c3_two_element_union_elbow_witness :
    create_fitting [sD0, sD1par] = .created (.union sK1 sK2) ∧
    create_fitting [sD0, sD1perp] = .created (.elbow sK1 sK2) := by
  constructor
  · exact (c3_two_element_union_elbow sD0 sD1par ⟨0, 0, 0⟩ sK1 sK2 ⟨1, 0, 0⟩ ⟨-1, 0, 0⟩
      (by with_unfolding_all decide) (by with_unfolding_all decide)
      (by with_unfolding_all decide) (by with_unfolding_all decide)
      (by with_unfolding_all decide)).trans (by with_unfolding_all decide)
  · exact (c3_two_element_union_elbow sD0 sD1perp ⟨0, 0, 0⟩ sK1 sK2 ⟨1, 0, 0⟩ ⟨0, 1, 0⟩
      (by with_unfolding_all decide) (by with_unfolding_all decide)
      (by with_unfolding_all decide) (by with_unfolding_all decide)
      (by with_unfolding_all decide)).trans (by with_unfolding_all decide)

/-- C1: on a three-element cluster that passes the intersection
precondition, the tee constructor is invoked exactly once, with argument
order decided by the priority-ordered parallelism tests: `dir1` parallel to
`dir2` gives `tee(conn1, conn2, conn3)`; otherwise `dir1` parallel to
`dir3` gives `tee(conn3, conn1, conn2)`; otherwise `tee(conn3, conn2, conn1)`
with no test of `dir2` against `dir3` (the final branch below is taken
whenever both prior tests fail, whatever the relation of `v2` and `v3`). -/
theorem c1_three_element_tee_priority (d0 d1 d2 : Duct) (pt : Vec3)
    (k1 k2 k3 : Connector) (v1 v2 v3 : Vec3)
    (hpt : find_shared_point_between_curves d0.location d1.location = some pt)
    (h1 : MEPcurve_element_nearest_connector_to_point d0 pt = some k1)
    (h2 : MEPcurve_element_nearest_connector_to_point d1 pt = some k2)
    (h3 : MEPcurve_element_nearest_connector_to_point d2 pt = some k3)
    (hd1 : get_MEPcurve_element_direction d0 = some v1)
    (hd2 : get_MEPcurve_element_direction d1 = some v2)
    (hd3 : get_MEPcurve_element_direction d2 = some v3) :
    create_fitting [d0, d1, d2] =
      .created (if are_directions_parallel v1 v2 then .tee k1 k2 k3
        else if are_directions_parallel v1 v3 then .tee k3 k1 k2
        else .tee k3 k2 k1) :=
  create_fitting_three_eq d0 d1 d2 pt k1 k2 k3 v1 v2 v3 hpt h1 h2 h3 hd1 hd2 hd3

/-- Witness for C1: elements 1 and 2 collinear with element 3 branching off
yield `tee(conn1, conn2, conn3)`; the fallback branch fires on three
pairwise tests failing as well, yielding `tee(conn3, conn2, conn1)` even
though `dir2` and `dir3` are not parallel there. -/
theorem c1_three_element_tee_priority_witness :
    create_fitting [sD0, sD1par, sD2perp] = .created (.tee sK1 sK2 sK3) ∧
    create_fitting [sD0, sD1perp, sD2perp] = .created (.tee sK3 sK2 sK1) := by
  constructor
  · exact (c1_three_element_tee_priority sD0 sD1par sD2perp ⟨0, 0, 0⟩ sK1 sK2 sK3
      ⟨1, 0, 0⟩ ⟨-1, 0, 0⟩ ⟨0, 1, 0⟩
      (by with_unfolding_all decide) (by with_unfolding_all decide)
      (by with_unfolding_all decide) (by with_unfolding_all decide)
      (by with_unfolding_all decide) (by with_unfolding_all decide)
      (by with_unfolding_all decide)).trans (by with_unfolding_all decide)
  · exact (c1_three_element_tee_priority sD0 sD1perp sD2perp ⟨0, 0, 0⟩ sK1 sK2 sK3
      ⟨1, 0, 0⟩ ⟨0, 1, 0⟩ ⟨0, 1, 0⟩
      (by with_unfolding_all decide) (by with_unfolding_all decide)
      (by with_unfolding_all decide) (by with_unfolding_all decide)
      (by with_unfolding_all decide) (by with_unfolding_all decide)
      (by with_unfolding_all decide)).trans (by with_unfolding_all decide)

/-- C2: on a four-element cluster that passes the intersection
precondition, the pairs (1,2), (1,3), (1,4) are tested for parallelism in
that priority order; the cross constructor is invoked once with the two
members of the winning pair first and the remaining two connectors last,
and if none of the three pairs is parallel no constructor is invoked and
no error is raised (the result is `noop`). -/
theorem c2_four_element_cross_priority (d0 d1 d2 d3 : Duct) (pt : Vec3)
    (k1 k2 k3 k4 : Connector) (v1 v2 v3 v4 : Vec3)
    (hpt : find_shared_point_between_curves d0.location d1.location = some pt)
    (h1 : MEPcurve_element_nearest_connector_to_point d0 pt = some k1)
    (h2 : MEPcurve_element_nearest_connector_to_point d1 pt = some k2)
    (h3 : MEPcurve_element_nearest_connector_to_point d2 pt = some k3)
    (h4 : MEPcurve_element_nearest_connector_to_point d3 pt = some k4)
    (hd1 : get_MEPcurve_element_direction d0 = some v1)
    (hd2 : get_MEPcurve_element_direction d1 = some v2)
    (hd3 : get_MEPcurve_element_direction d2 = some v3)
    (hd4 : get_MEPcurve_element_direction d3 = some v4) :
    create_fitting [d0, d1, d2, d3] =
      (if are_directions_parallel v1 v2 then .created (.cross k1 k2 k3 k4)
        else if are_directions_parallel v1 v3 then .created (.cross k1 k3 k2 k4)
        else if are_directions_parallel v1 v4 then .created (.cross k1 k4 k2 k3)
        else .noop) :=
  create_fitting_four_eq d0 d1 d2 d3 pt k1 k2 k3 k4 v1 v2 v3 v4
    hpt h1 h2 h3 h4 hd1 hd2 hd3 hd4

/-- Witness for C2: two collinear pairs with elements 1 and 3 parallel (the
scenario-D shape) yield `cross(conn1, conn3, conn2, conn4)`; four elements
with no parallel pair among (1,2), (1,3), (1,4) yield no call and no error. -/
theorem c2_four_element_cross_priority_witness :
    create_fitting [sD0, sD1perp, sD2par, sD3perp] = .created (.cross sK1 sK3 sK2 sK4) ∧
    create_fitting [sD0, sD1perp, sD2perp, sD3skew] = .noop := by
  constructor
  · exact (c2_four_element_cross_priority sD0 sD1perp sD2par sD3perp ⟨0, 0, 0⟩
      sK1 sK2 sK3 sK4 ⟨1, 0, 0⟩ ⟨0, 1, 0⟩ ⟨-1, 0, 0⟩ ⟨0, -1, 0⟩
      (by with_unfolding_all decide) (by with_unfolding_all decide)
      (by with_unfolding_all decide) (by with_unfolding_all decide)
      (by with_unfolding_all decide) (by with_unfolding_all decide)
      (by with_unfolding_all decide) (by with_unfolding_all decide)
      (by with_unfolding_all decide)).trans (by with_unfolding_all decide)
  · exact (c2_four_element_cross_priority sD0 sD1perp sD2perp sD3skew ⟨0, 0, 0⟩
      sK1 sK2 sK3 sK4 ⟨1, 0, 0⟩ ⟨0, 1, 0⟩ ⟨0, 1, 0⟩ ⟨1, 1, 1⟩
      (by with_unfolding_all decide) (by with_unfolding_all decide)
      (by with_unfolding_all decide) (by with_unfolding_all decide)
      (by with_unfolding_all decide) (by with_unfolding_all decide)
      (by with_unfolding_all decide) (by with_unfolding_all decide)
      (by with_unfolding_all decide)).trans (by with_unfolding_all decide)

/-- The real-distance comparison `p.DistanceTo(q) < 0.01` is equivalent to
the rational comparison the model computes with. -/
theorem closeEnough_iff (p q : Vec3) : closeEnough p q ↔ 10000 * distSq p q < 1 := by
  unfold closeEnough
  rw [Real.sqrt_lt' (by norm_num : (0:ℝ) < 1 / 100)]
  rw [show ((1:ℝ) / 100) ^ 2 = ((1 / 10000 : ℚ) : ℝ) by norm_num]
  rw [Rat.cast_lt]
  constructor <;> intro h <;> linarith

/-- C5: the shared intersection point comes from the first two elements
only.  First part: on two present curves, `find_shared_point_between_curves`
returns the midpoint of the first endpoint pair (in the loop order
`(ep0,ep0), (ep0,ep1), (ep1,ep0), (ep1,ep1)`) whose real distance is
strictly below `0.01`, and `none` when no pair is that close.  Second part:
when it returns `none`, `create_fitting` on the cluster is a no-op whatever
the remaining elements are. -/
theorem c5_intersection_from_first_two :
    (∀ u v : Curve,
      (closeEnough u.ep0 v.ep0 →
         find_shared_point_between_curves (some u) (some v) = some (mid u.ep0 v.ep0)) ∧
      (¬ closeEnough u.ep0 v.ep0 → closeEnough u.ep0 v.ep1 →
         find_shared_point_between_curves (some u) (some v) = some (mid u.ep0 v.ep1)) ∧
      (¬ closeEnough u.ep0 v.ep0 → ¬ closeEnough u.ep0 v.ep1 → closeEnough u.ep1 v.ep0 →
         find_shared_point_between_curves (some u) (some v) = some (mid u.ep1 v.ep0)) ∧
      (¬ closeEnough u.ep0 v.ep0 → ¬ closeEnough u.ep0 v.ep1 → ¬ closeEnough u.ep1 v.ep0 →
         closeEnough u.ep1 v.ep1 →
         find_shared_point_between_curves (some u) (some v) = some (mid u.ep1 v.ep1)) ∧
      (¬ closeEnough u.ep0 v.ep0 → ¬ closeEnough u.ep0 v.ep1 → ¬ closeEnough u.ep1 v.ep0 →
         ¬ closeEnough u.ep1 v.ep1 →
         find_shared_point_between_curves (some u) (some v) = none)) ∧
    (∀ (d0 d1 : Duct) (rest : List Duct), rest.length ≤ 2 →
       find_shared_point_between_curves d0.location d1.location = none →
       create_fitting (d0 :: d1 :: rest) = .noop) := by
  constructor
  · intro u v
    simp only [closeEnough_iff]
    refine ⟨fun h1 => ?_, fun h1 h2 => ?_, fun h1 h2 h3 => ?_, fun h1 h2 h3 h4 => ?_,
      fun h1 h2 h3 h4 => ?_⟩ <;>
      simp [find_shared_point_between_curves, List.findSome?, *]
  · intro d0 d1 rest hlen hnone
    unfold create_fitting
    rw [if_neg (by simp; omega)]
    simp [hnone]

/-- Witness for C5: a pair of curves whose first endpoint pair is far apart
but whose second pair coincides returns the midpoint of the second pair
(the priority order is exercised), and a cluster whose first two curves
share no point is a no-op. -/
theorem c5_intersection_from_first_two_witness :
    find_shared_point_between_curves (some ⟨⟨0, 0, 0⟩, ⟨1, 0, 0⟩⟩)
        (some ⟨⟨3, 3, 3⟩, ⟨0, 0, 0⟩⟩) = some (mid ⟨0, 0, 0⟩ ⟨0, 0, 0⟩) ∧
    create_fitting [sD0, sD1far] = .noop :=
  ⟨(c5_intersection_from_first_two.1 ⟨⟨0, 0, 0⟩, ⟨1, 0, 0⟩⟩ ⟨⟨3, 3, 3⟩, ⟨0, 0, 0⟩⟩).2.1
      (by rw [closeEnough_iff]; with_unfolding_all decide)
      (by rw [closeEnough_iff]; with_unfolding_all decide),
   c5_intersection_from_first_two.2 sD0 sD1far [] (by decide)
      (by with_unfolding_all decide)⟩

/-- Counterexample for C4: a cluster where elements 1 and 3 are the through
pair (so element 2 is the branch).  The code calls `tee(conn3, conn1, conn2)`:
the first argument is `conn3`, a through connector, not the branch connector
`conn2` — the claim "the branch connector is in the first position" is false
here (and the through pair `(conn1, conn3)` is also passed in reversed
relative order). -/
theorem c4_branch_first_counterexample :
    create_fitting [sD0, sD1perp, sD2par] = .created (.tee sK3 sK1 sK2) ∧
    sK3 ≠ sK2 :=
  ⟨by with_unfolding_all decide, by decide⟩

/-- C4 (amended): the tee constructor receives the branch connector in the
last position, preceded by the two through connectors — in their original
relative order when elements 1 and 2 are the through pair, and in reversed
relative order in the two remaining branches. -/
theorem c4_tee_branch_last (d0 d1 d2 : Duct) (pt : Vec3)
    (k1 k2 k3 : Connector) (v1 v2 v3 : Vec3)
    (hpt : find_shared_point_between_curves d0.location d1.location = some pt)
    (h1 : MEPcurve_element_nearest_connector_to_point d0 pt = some k1)
    (h2 : MEPcurve_element_nearest_connector_to_point d1 pt = some k2)
    (h3 : MEPcurve_element_nearest_connector_to_point d2 pt = some k3)
    (hd1 : get_MEPcurve_element_direction d0 = some v1)
    (hd2 : get_MEPcurve_element_direction d1 = some v2)
    (hd3 : get_MEPcurve_element_direction d2 = some v3) :
    (are_directions_parallel v1 v2 = true →
       create_fitting [d0, d1, d2] = .created (.tee k1 k2 k3)) ∧
    (are_directions_parallel v1 v2 = false → are_directions_parallel v1 v3 = true →
       create_fitting [d0, d1, d2] = .created (.tee k3 k1 k2)) ∧
    (are_directions_parallel v1 v2 = false → are_directions_parallel v1 v3 = false →
       create_fitting [d0, d1, d2] = .created (.tee k3 k2 k1)) := by
  have he := create_fitting_three_eq d0 d1 d2 pt k1 k2 k3 v1 v2 v3 hpt h1 h2 h3 hd1 hd2 hd3
  refine ⟨fun hb => ?_, fun hb hc => ?_, fun hb hc => ?_⟩ <;> rw [he] <;> simp [*]

/-- Witness for the amended C4: a through pair (1,2) with a skew branch
yields the two through connectors first in original order and the branch
connector last. -/
theorem c4_tee_branch_last_witness :
    create_fitting [sD0, sD1par, sD3skew] = .created (.tee sK1 sK2 sK4) :=
  (c4_tee_branch_last sD0 sD1par sD3skew ⟨0, 0, 0⟩ sK1 sK2 sK4
    ⟨1, 0, 0⟩ ⟨-1, 0, 0⟩ ⟨1, 1, 1⟩
    (by with_unfolding_all decide) (by with_unfolding_all decide)
    (by with_unfolding_all decide) (by with_unfolding_all decide)
    (by with_unfolding_all decide) (by with_unfolding_all decide)
    (by with_unfolding_all decide)).1 (by with_unfolding_all decide)

/-- If either of the first two elements has no curve-based location, the
shared-point lookup gets a `None` curve and `create_fitting` is a no-op. -/
theorem create_fitting_missing_first_two_noop (d0 d1 : Duct) (rest : List Duct)
    (h : d0.location = none ∨ d1.location = none) :
    create_fitting (d0 :: d1 :: rest) = .noop := by
  have hnone : find_shared_point_between_curves d0.location d1.location = none := by
    rcases h with h | h
    · rw [h]; cases d1.location <;> rfl
    · rw [h]; cases d0.location <;> rfl
  unfold create_fitting
  by_cases hl : (d0 :: d1 :: rest).length < 2 ∨ (d0 :: d1 :: rest).length > 4
  · rw [if_pos hl]
  · rw [if_neg hl]
    simp [hnone]

/-- A fold over a nonempty connector list starting from a `some`
accumulator stays `some`. -/
theorem nearest_foldl_some (p : Vec3) (cs : List Connector) (b : Connector) :
    ∃ k, cs.foldl
      (fun acc c =>
        match acc with
        | none => some c
        | some b => if distSq c.origin p < distSq b.origin p then some c else some b)
      (some b) = some k := by
  induction cs generalizing b with
  | nil => exact ⟨b, rfl⟩
  | cons c cs ih =>
      simp only [List.foldl_cons]
      by_cases h : distSq c.origin p < distSq b.origin p
      · simpa [h] using ih c
      · simpa [h] using ih b

/-- An element with at least one connector always has a nearest connector. -/
theorem nearest_isSome (e : Duct) (p : Vec3) (h : e.connectors ≠ []) :
    ∃ k, MEPcurve_element_nearest_connector_to_point e p = some k := by
  unfold MEPcurve_element_nearest_connector_to_point
  cases hc : e.connectors with
  | nil => exact absurd hc h
  | cons c cs =>
      simp only [List.foldl_cons]
      exact nearest_foldl_some p cs c

/-- An element with a curve-based location always has a direction. -/
theorem direction_isSome (e : Duct) (h : e.location.isSome) :
    ∃ w, get_MEPcurve_element_direction e = some w := by
  unfold get_MEPcurve_element_direction
  obtain ⟨c, hc⟩ := Option.isSome_iff_exists.mp h
  rw [hc]
  exact ⟨_, rfl⟩

/-- When every element of the cluster has a curve-based location and at
least one connector, `create_fitting` never raises. -/
theorem create_fitting_no_error (ducts : List Duct)
    (hloc : ∀ d ∈ ducts, d.location.isSome)
    (hconn : ∀ d ∈ ducts, d.connectors ≠ []) :
    create_fitting ducts ≠ .error := by
  match ducts with
  | [] => unfold create_fitting; simp
  | [d] => unfold create_fitting; simp
  | d0 :: d1 :: rest =>
    match rest with
    | [] =>
        cases hsp : find_shared_point_between_curves d0.location d1.location with
        | none =>
            unfold create_fitting
            simp [hsp]
        | some pt =>
            obtain ⟨k1, hk1⟩ := nearest_isSome d0 pt (hconn d0 (by simp))
            obtain ⟨k2, hk2⟩ := nearest_isSome d1 pt (hconn d1 (by simp))
            obtain ⟨v1, hv1⟩ := direction_isSome d0 (hloc d0 (by simp))
            obtain ⟨v2, hv2⟩ := direction_isSome d1 (hloc d1 (by simp))
            rw [create_fitting_two_eq d0 d1 pt k1 k2 v1 v2 hsp hk1 hk2 hv1 hv2]
            split <;> simp
    | [d2] =>
        cases hsp : find_shared_point_between_curves d0.location d1.location with
        | none => unfold create_fitting; simp [hsp]
        | some pt =>
            obtain ⟨k1, hk1⟩ := nearest_isSome d0 pt (hconn d0 (by simp))
            obtain ⟨k2, hk2⟩ := nearest_isSome d1 pt (hconn d1 (by simp))
            obtain ⟨k3, hk3⟩ := nearest_isSome d2 pt (hconn d2 (by simp))
            obtain ⟨v1, hv1⟩ := direction_isSome d0 (hloc d0 (by simp))
            obtain ⟨v2, hv2⟩ := direction_isSome d1 (hloc d1 (by simp))
            obtain ⟨v3, hv3⟩ := direction_isSome d2 (hloc d2 (by simp))
            rw [create_fitting_three_eq d0 d1 d2 pt k1 k2 k3 v1 v2 v3 hsp
              hk1 hk2 hk3 hv1 hv2 hv3]
            simp
    | [d2, d3] =>
        cases hsp : find_shared_point_between_curves d0.location d1.location with
        | none => unfold create_fitting; simp [hsp]
        | some pt =>
            obtain ⟨k1, hk1⟩ := nearest_isSome d0 pt (hconn d0 (by simp))
            obtain ⟨k2, hk2⟩ := nearest_isSome d1 pt (hconn d1 (by simp))
            obtain ⟨k3, hk3⟩ := nearest_isSome d2 pt (hconn d2 (by simp))
            obtain ⟨k4, hk4⟩ := nearest_isSome d3 pt (hconn d3 (by simp))
            obtain ⟨v1, hv1⟩ := direction_isSome d0 (hloc d0 (by simp))
            obtain ⟨v2, hv2⟩ := direction_isSome d1 (hloc d1 (by simp))
            obtain ⟨v3, hv3⟩ := direction_isSome d2 (hloc d2 (by simp))
            obtain ⟨v4, hv4⟩ := direction_isSome d3 (hloc d3 (by simp))
            rw [create_fitting_four_eq d0 d1 d2 d3 pt k1 k2 k3 k4 v1 v2 v3 v4 hsp
              hk1 hk2 hk3 hk4 hv1 hv2 hv3 hv4]
            by_cases p12 : are_directions_parallel v1 v2 <;>
              by_cases p13 : are_directions_parallel v1 v3 <;>
                by_cases p14 : are_directions_parallel v1 v4 <;>
                  simp [p12, p13, p14]
    | d2 :: d3 :: d4 :: rest2 =>
        unfold create_fitting
        rw [if_pos (by simp only [List.length_cons]; omega)]
        simp

/-- Counterexample for C10: a three-element cluster whose first two
directions are parallel completes without error — the tee is created —
even though the third element has no curve-based location; the claimed
precondition is therefore not necessary. -/
theorem c10_none_guard_counterexample :
    create_fitting [sD0, sD1par, sD2noloc] = .created (.tee sK1 sK2 sK3) ∧
    sD2noloc.location = none :=
  ⟨by with_unfolding_all decide, rfl⟩

/-- C10 (amended): the `None` guard covers only the first two elements —
if either of them lacks a curve-based location the cluster is safely
skipped; when every element has a curve-based location (and a connector)
`create_fitting` never raises; but the third and fourth directions are
consumed with no `None` check, so a third element without a curve-based
location does raise once the first parallelism test fails (the closed third
conjunct) — while a cluster whose first two directions are parallel
completes without error even then, so the precondition is sufficient, not
necessary. -/
theorem c10_none_guard_amended :
    (∀ (d0 d1 : Duct) (rest : List Duct),
        (d0.location = none ∨ d1.location = none) →
        create_fitting (d0 :: d1 :: rest) = .noop) ∧
    (∀ ducts : List Duct, (∀ d ∈ ducts, d.location.isSome) →
        (∀ d ∈ ducts, d.connectors ≠ []) →
        create_fitting ducts ≠ .error) ∧
    create_fitting [sD0, sD1perp, sD2noloc] = .error :=
  ⟨create_fitting_missing_first_two_noop, create_fitting_no_error,
   by with_unfolding_all decide⟩

/-- Witness for the amended C10: a cluster whose first element lacks a
curve-based location is a no-op, and a well-formed two-element cluster does
not raise. -/
theorem c10_none_guard_amended_witness :
    create_fitting [sD2noloc, sD1par] = .noop ∧
    create_fitting [sD0, sD2par] ≠ .error :=
  ⟨c10_none_guard_amended.1 sD2noloc sD1par [] (Or.inl rfl),
   c10_none_guard_amended.2.1 [sD0, sD2par]
     (by with_unfolding_all decide) (by with_unfolding_all decide)⟩

/-- Lagrange identity in three dimensions. -/
theorem normSq_cross (a b : Vec3) :
    normSq (cross a b) = normSq a * normSq b - dot a b ^ 2 := by
  simp only [normSq, cross, dot]
  ring

/-- The cross product scales on the left. -/
theorem cross_smul_left (a : ℚ) (v w : Vec3) :
    cross (smul a v) w = smul a (cross v w) := by
  simp only [cross, smul, Vec3.mk.injEq]
  refine ⟨by ring, by ring, by ring⟩

/-- The cross product scales on the right. -/
theorem cross_smul_right (a : ℚ) (v w : Vec3) :
    cross v (smul a w) = smul a (cross v w) := by
  simp only [cross, smul, Vec3.mk.injEq]
  refine ⟨by ring, by ring, by ring⟩

/-- The squared norm of a scalar multiple. -/
theorem normSq_smul (a : ℚ) (v : Vec3) : normSq (smul a v) = a ^ 2 * normSq v := by
  simp only [normSq, smul, dot]
  ring

/-- `are_directions_parallel` is invariant under positive scaling of its
first argument: this justifies modelling `Normalize()` by the unnormalised
end-minus-start vector in `get_MEPcurve_element_direction`. -/
theorem are_directions_parallel_smul_left (a : ℚ) (ha : 0 < a) (v w : Vec3) :
    are_directions_parallel (smul a v) w = are_directions_parallel v w := by
  have ha2 : (0:ℚ) < a ^ 2 := by positivity
  simp only [are_directions_parallel, cross_smul_left, normSq_smul, decide_eq_decide]
  rw [show 10000 * (a ^ 2 * normSq (cross v w)) = a ^ 2 * (10000 * normSq (cross v w)) by ring,
      show a ^ 2 * normSq v * normSq w = a ^ 2 * (normSq v * normSq w) by ring,
      mul_lt_mul_left ha2]

/-- `are_directions_parallel` is invariant under positive scaling of its
second argument. -/
theorem are_directions_parallel_smul_right (a : ℚ) (ha : 0 < a) (v w : Vec3) :
    are_directions_parallel v (smul a w) = are_directions_parallel v w := by
  have ha2 : (0:ℚ) < a ^ 2 := by positivity
  simp only [are_directions_parallel, cross_smul_right, normSq_smul, decide_eq_decide]
  rw [show 10000 * (a ^ 2 * normSq (cross v w)) = a ^ 2 * (10000 * normSq (cross v w)) by ring,
      show normSq v * (a ^ 2 * normSq w) = a ^ 2 * (normSq v * normSq w) by ring,
      mul_lt_mul_left ha2]

/-- C7: for nonzero vectors, `are_directions_parallel v1 v2` holds iff the
sine of the angle between them — the Revit `AngleTo` is the arccosine of
the normalised dot product, in `[0, pi]` — is strictly below the tolerance
`0.01`; consequently the test is reflexive on every nonzero direction and
accepts every exactly antiparallel pair, because the sine, not the cosine,
of the angle is compared. -/
theorem c7_parallelism_sine :
    (∀ v1 v2 : Vec3, 0 < normSq v1 → 0 < normSq v2 →
      (are_directions_parallel v1 v2 = true ↔
        Real.sin (Real.arccos (((dot v1 v2 : ℚ) : ℝ) /
          (Real.sqrt ((normSq v1 : ℚ) : ℝ) * Real.sqrt ((normSq v2 : ℚ) : ℝ)))) < 1 / 100)) ∧
    (∀ d : Vec3, 0 < normSq d → are_directions_parallel d d = true) ∧
    (∀ d : Vec3, 0 < normSq d → are_directions_parallel d (vneg d) = true) := by
  refine ⟨fun v1 v2 h1 h2 => ?_, fun d hd => ?_, fun d hd => ?_⟩
  · have n1pos : (0:ℝ) < ((normSq v1 : ℚ) : ℝ) := by exact_mod_cast h1
    have n2pos : (0:ℝ) < ((normSq v2 : ℚ) : ℝ) := by exact_mod_cast h2
    have hs1 : Real.sqrt ((normSq v1 : ℚ) : ℝ) ^ 2 = ((normSq v1 : ℚ) : ℝ) :=
      Real.sq_sqrt n1pos.le
    have hs2 : Real.sqrt ((normSq v2 : ℚ) : ℝ) ^ 2 = ((normSq v2 : ℚ) : ℝ) :=
      Real.sq_sqrt n2pos.le
    have lag : ((normSq (cross v1 v2) : ℚ) : ℝ) =
        ((normSq v1 : ℚ) : ℝ) * ((normSq v2 : ℚ) : ℝ) - ((dot v1 v2 : ℚ) : ℝ) ^ 2 := by
      have h := normSq_cross v1 v2
      rw [h]
      push_cast
      ring
    simp only [are_directions_parallel, decide_eq_true_eq]
    rw [Real.sin_arccos, Real.sqrt_lt' (by norm_num : (0:ℝ) < 1 / 100)]
    rw [div_pow, mul_pow, hs1, hs2]
    rw [show (1:ℝ) - ((dot v1 v2 : ℚ) : ℝ) ^ 2 / (((normSq v1 : ℚ) : ℝ) * ((normSq v2 : ℚ) : ℝ)) =
        (((normSq v1 : ℚ) : ℝ) * ((normSq v2 : ℚ) : ℝ) - ((dot v1 v2 : ℚ) : ℝ) ^ 2) /
          (((normSq v1 : ℚ) : ℝ) * ((normSq v2 : ℚ) : ℝ)) by
      field_simp]
    rw [div_lt_iff₀ (mul_pos n1pos n2pos), ← lag]
    constructor
    · intro h
      have hR : (10000:ℝ) * ((normSq (cross v1 v2) : ℚ) : ℝ) <
          ((normSq v1 : ℚ) : ℝ) * ((normSq v2 : ℚ) : ℝ) := by exact_mod_cast h
      nlinarith
    · intro h
      have hR : (10000:ℝ) * ((normSq (cross v1 v2) : ℚ) : ℝ) <
          ((normSq v1 : ℚ) : ℝ) * ((normSq v2 : ℚ) : ℝ) := by nlinarith
      exact_mod_cast hR
  · simp only [are_directions_parallel, decide_eq_true_eq]
    have hc : normSq (cross d d) = 0 := by simp only [normSq, cross, dot]; ring
    rw [hc]
    simpa using mul_pos hd hd
  · simp only [are_directions_parallel, decide_eq_true_eq]
    have hc : normSq (cross d (vneg d)) = 0 := by simp only [normSq, cross, dot, vneg]; ring
    have hn : normSq (vneg d) = normSq d := by simp only [normSq, dot, vneg]; ring
    rw [hc, hn]
    simpa using mul_pos hd hd

/-- Witness for C7: the unit x direction is parallel to itself and to its
negation. -/
theorem c7_parallelism_sine_witness :
    are_directions_parallel ⟨1, 0, 0⟩ ⟨1, 0, 0⟩ = true ∧
    are_directions_parallel ⟨1, 0, 0⟩ (vneg ⟨1, 0, 0⟩) = true :=
  ⟨c7_parallelism_sine.2.1 ⟨1, 0, 0⟩ (by with_unfolding_all decide),
   c7_parallelism_sine.2.2 ⟨1, 0, 0⟩ (by with_unfolding_all decide)⟩

/-- The key list after one insertion: unchanged when the key is already
present, extended at the end when it is new. -/
theorem addToGroup_keys (g : List ((ℚ × ℚ × ℚ) × List Connector)) (k : ℚ × ℚ × ℚ)
    (c : Connector) :
    (addToGroup g k c).map Prod.fst =
      if k ∈ g.map Prod.fst then g.map Prod.fst else g.map Prod.fst ++ [k] := by
  induction g with
  | nil => simp [addToGroup]
  | cons hd tl ih =>
      obtain ⟨k1, cs⟩ := hd
      by_cases hk : k1 = k
      · subst hk
        simp [addToGroup]
      · by_cases hm : k ∈ tl.map Prod.fst
        · simp [addToGroup, hk, ih, hm, List.mem_cons, Ne.symm hk]
        · simp [addToGroup, hk, ih, hm, List.mem_cons, Ne.symm hk]

/-- Inserting a connector under its own key preserves the invariant that
every stored connector has its group key. -/
theorem addToGroup_key_inv (g : List ((ℚ × ℚ × ℚ) × List Connector)) (k : ℚ × ℚ × ℚ)
    (c : Connector)
    (hg : ∀ kl ∈ g, ∀ x ∈ kl.2, connector_location_key x = kl.1)
    (hc : connector_location_key c = k) :
    ∀ kl ∈ addToGroup g k c, ∀ x ∈ kl.2, connector_location_key x = kl.1 := by
  induction g with
  | nil =>
      intro kl hkl x hx
      simp only [addToGroup, List.mem_singleton] at hkl
      subst hkl
      simp only [List.mem_singleton] at hx
      subst hx
      exact hc
  | cons hd tl ih =>
      obtain ⟨k1, cs⟩ := hd
      by_cases hk : k1 = k
      · subst hk
        intro kl hkl x hx
        rw [show addToGroup ((k1, cs) :: tl) k1 c = (k1, cs ++ [c]) :: tl by
          simp [addToGroup]] at hkl
        rcases List.mem_cons.mp hkl with hkl | hkl
        · subst hkl
          rcases List.mem_append.mp hx with hx | hx
          · exact hg (k1, cs) (List.mem_cons_self _ _) x hx
          · rw [List.mem_singleton.mp hx]
            exact hc
        · exact hg kl (List.mem_cons_of_mem _ hkl) x hx
      · intro kl hkl x hx
        rw [show addToGroup ((k1, cs) :: tl) k c = (k1, cs) :: addToGroup tl k c by
          simp [addToGroup, hk]] at hkl
        rcases List.mem_cons.mp hkl with hkl | hkl
        · subst hkl
          exact hg (k1, cs) (List.mem_cons_self _ _) x hx
        · exact ih (fun kl h => hg kl (List.mem_cons_of_mem _ h)) kl hkl x hx

/-- The inserted connector is stored in some group. -/
theorem addToGroup_mem_new (g : List ((ℚ × ℚ × ℚ) × List Connector)) (k : ℚ × ℚ × ℚ)
    (c : Connector) :
    ∃ kl ∈ addToGroup g k c, c ∈ kl.2 := by
  induction g with
  | nil => exact ⟨(k, [c]), by simp [addToGroup]⟩
  | cons hd tl ih =>
      obtain ⟨k1, cs⟩ := hd
      by_cases hk : k1 = k
      · subst hk
        exact ⟨(k1, cs ++ [c]), by simp [addToGroup]⟩
      · obtain ⟨kl, hkl, hc⟩ := ih
        exact ⟨kl, by simp [addToGroup, hk, hkl], hc⟩

/-- A connector already stored stays stored after an insertion. -/
theorem addToGroup_mem_old (g : List ((ℚ × ℚ × ℚ) × List Connector)) (k : ℚ × ℚ × ℚ)
    (c x : Connector) (h : ∃ kl ∈ g, x ∈ kl.2) :
    ∃ kl ∈ addToGroup g k c, x ∈ kl.2 := by
  induction g with
  | nil => simp at h
  | cons hd tl ih =>
      obtain ⟨k1, cs⟩ := hd
      obtain ⟨kl, hkl, hx⟩ := h
      simp only [List.mem_cons] at hkl
      by_cases hk : k1 = k
      · subst hk
        rcases hkl with hkl | hkl
        · subst hkl
          exact ⟨(k1, cs ++ [c]), by simp [addToGroup], by simp [hx]⟩
        · exact ⟨kl, by simp [addToGroup, hkl], hx⟩
      · rcases hkl with hkl | hkl
        · subst hkl
          exact ⟨(k1, cs), by simp [addToGroup, hk], hx⟩
        · obtain ⟨kl2, hkl2, hx2⟩ := ih ⟨kl, hkl, hx⟩
          exact ⟨kl2, by simp [addToGroup, hk, hkl2], hx2⟩

/-- The key list of the grouping fold is the first-seen fold over the keys. -/
theorem groupFold_keys (cs : List Connector) (g0 : List ((ℚ × ℚ × ℚ) × List Connector)) :
    ((cs.foldl (fun g c => addToGroup g (connector_location_key c) c) g0).map Prod.fst) =
      (cs.map connector_location_key).foldl
        (fun acc k => if k ∈ acc then acc else acc ++ [k]) (g0.map Prod.fst) := by
  induction cs generalizing g0 with
  | nil => rfl
  | cons c cs ih =>
      simp only [List.foldl_cons, List.map_cons, ih, addToGroup_keys]

/-- The grouping fold preserves the key invariant. -/
theorem groupFold_inv (cs : List Connector) (g0 : List ((ℚ × ℚ × ℚ) × List Connector))
    (h : ∀ kl ∈ g0, ∀ x ∈ kl.2, connector_location_key x = kl.1) :
    ∀ kl ∈ cs.foldl (fun g c => addToGroup g (connector_location_key c) c) g0, ∀ x ∈ kl.2,
      connector_location_key x = kl.1 := by
  induction cs generalizing g0 with
  | nil => exact h
  | cons c cs ih =>
      simp only [List.foldl_cons]
      exact ih _ (addToGroup_key_inv g0 _ c h rfl)

/-- Every input connector, and every connector already grouped, appears in
some group after the fold. -/
theorem groupFold_mem (cs : List Connector) (g0 : List ((ℚ × ℚ × ℚ) × List Connector))
    (c : Connector) (h : (∃ kl ∈ g0, c ∈ kl.2) ∨ c ∈ cs) :
    ∃ kl ∈ cs.foldl (fun g c => addToGroup g (connector_location_key c) c) g0, c ∈ kl.2 := by
  induction cs generalizing g0 with
  | nil =>
      rcases h with h | h
      · exact h
      · simp at h
  | cons c2 cs ih =>
      simp only [List.foldl_cons]
      rcases h with h | h
      · exact ih _ (Or.inl (addToGroup_mem_old g0 _ c2 c h))
      · simp only [List.mem_cons] at h
        rcases h with h | h
        · subst h
          exact ih _ (Or.inl (addToGroup_mem_new g0 _ c))
        · exact ih _ (Or.inr h)

/-- The first-seen fold keeps the key list free of duplicates. -/
theorem foldl_insert_nodup (ks : List (ℚ × ℚ × ℚ)) (acc : List (ℚ × ℚ × ℚ))
    (h : acc.Nodup) :
    (ks.foldl (fun acc k => if k ∈ acc then acc else acc ++ [k]) acc).Nodup := by
  induction ks generalizing acc with
  | nil => exact h
  | cons k ks ih =>
      simp only [List.foldl_cons]
      by_cases hm : k ∈ acc
      · simpa [hm] using ih acc h
      · have hn : (acc ++ [k]).Nodup := by simp [List.nodup_append, h, hm]
        simpa [hm] using ih _ hn

/-- C8: grouping maps every input connector into a group; every member of a
group has exactly that group key (so two connectors rounding to different
keys are never grouped together); the group keys are pairwise distinct (so
each connector is in exactly one group); and the output key order is
exactly the insertion order of each first-seen key. -/
theorem c8_grouping_by_rounded_key (cs : List Connector) :
    (∀ kl ∈ group_MEPcuve_element_connectors_by_location cs, ∀ c ∈ kl.2,
       connector_location_key c = kl.1) ∧
    ((group_MEPcuve_element_connectors_by_location cs).map Prod.fst).Nodup ∧
    (∀ c ∈ cs, ∃ kl ∈ group_MEPcuve_element_connectors_by_location cs, c ∈ kl.2) ∧
    (group_MEPcuve_element_connectors_by_location cs).map Prod.fst =
      firstSeenKeys (cs.map connector_location_key) := by
  refine ⟨groupFold_inv cs [] (by simp), ?_, fun c hc => groupFold_mem cs [] c (Or.inr hc), ?_⟩
  · rw [group_MEPcuve_element_connectors_by_location, groupFold_keys]
    exact foldl_insert_nodup _ _ (by simp)
  · exact groupFold_keys cs []

/-- Witness for C8: three connectors, two of which round to the key of the
origin (one sits 0.0004 away) while one rounds elsewhere, produce two
groups in first-seen key order, with the close pair merged and the far
connector kept apart. -/
theorem c8_grouping_by_rounded_key_witness :
    ((group_MEPcuve_element_connectors_by_location [sK1, sK1far, sKnear]).map Prod.fst).Nodup ∧
    (group_MEPcuve_element_connectors_by_location [sK1, sK1far, sKnear]).map Prod.fst =
      firstSeenKeys ([sK1, sK1far, sKnear].map connector_location_key) ∧
    group_MEPcuve_element_connectors_by_location [sK1, sK1far, sKnear] =
      [((0, 0, 0), [sK1, sKnear]), ((1, 0, 0), [sK1far])] :=
  ⟨(c8_grouping_by_rounded_key _).2.1, (c8_grouping_by_rounded_key _).2.2.2, by
    norm_num [group_MEPcuve_element_connectors_by_location, addToGroup,
      connector_location_key, roundTo3, round_eq, sK1, sK1far, sKnear]⟩

/-- The driver fold with an arbitrary starting log appends exactly the
per-cluster failures of every group. -/
theorem connector_groups_loop_acc {E : Type} (mep_elements : List Duct)
    (ctorFail : Fitting → Option E) (groups : List (List Connector))
    (acc : List (ClusterFailure E)) :
    groups.foldl
      (fun log g =>
        match cluster_attempt mep_elements ctorFail g with
        | none => log
        | some e => log ++ [e]) acc =
      acc ++ (groups.map (fun g => (cluster_attempt mep_elements ctorFail g).toList)).flatten := by
  induction groups generalizing acc with
  | nil => simp
  | cons g gs ih =>
      simp only [List.foldl_cons, List.map_cons, List.flatten]
      cases h : cluster_attempt mep_elements ctorFail g with
      | none => simp [h, ih]
      | some e => simp [h, ih]

/-- C9: the driver loop is total — it returns a log for every input — and
the log is exactly the concatenation of each cluster's own failures, each
computed independently of the other clusters; splitting the group list
around any cluster shows that the clusters before and after a failing one
are processed unchanged, so one failure never aborts the rest, and all the
failures are reported together rather than the first one ending the run. -/
theorem c9_loop_isolates_failures {E : Type} (mep_elements : List Duct)
    (ctorFail : Fitting → Option E) (groups : List (List Connector)) :
    (connector_groups_loop mep_elements ctorFail groups =
       (groups.map (fun g => (cluster_attempt mep_elements ctorFail g).toList)).flatten) ∧
    (∀ (gs1 : List (List Connector)) (g : List Connector) (gs2 : List (List Connector)),
       groups = gs1 ++ g :: gs2 →
       connector_groups_loop mep_elements ctorFail groups =
         connector_groups_loop mep_elements ctorFail gs1 ++
           (cluster_attempt mep_elements ctorFail g).toList ++
           connector_groups_loop mep_elements ctorFail gs2) := by
  constructor
  · simpa using connector_groups_loop_acc mep_elements ctorFail groups []
  · intro gs1 g gs2 hsplit
    subst hsplit
    unfold connector_groups_loop
    rw [connector_groups_loop_acc, connector_groups_loop_acc, connector_groups_loop_acc]
    simp

/-- Witness for C9: with a junction-creation capability that rejects every
call, three clusters — the first and third of which reach a constructor —
are all processed: the log splits around the middle cluster and collects
both failures. -/
theorem c9_loop_isolates_failures_witness :
    connector_groups_loop [sD0, sD1par, sD2perp] (fun _ => some ())
        [[sK1, sK2], [sK1far], [sK1, sK2, sK3]] =
      connector_groups_loop [sD0, sD1par, sD2perp] (fun _ => some ()) [[sK1, sK2]] ++
        (cluster_attempt [sD0, sD1par, sD2perp] (fun _ => some ()) [sK1far]).toList ++
        connector_groups_loop [sD0, sD1par, sD2perp] (fun _ => some ()) [[sK1, sK2, sK3]] ∧
    connector_groups_loop [sD0, sD1par, sD2perp] (fun _ => some ())
        [[sK1, sK2], [sK1far], [sK1, sK2, sK3]] =
      [.ctorFailure (), .ctorFailure ()] :=
  ⟨(c9_loop_isolates_failures [sD0, sD1par, sD2perp] (fun _ => some ())
      [[sK1, sK2], [sK1far], [sK1, sK2, sK3]]).2 [[sK1, sK2]] [sK1far] [[sK1, sK2, sK3]] rfl,
   by with_unfolding_all decide⟩

end MEP
